import Mathlib

/-! Verification of the `stdex::buffer<T>` container of the StdEx repository,
specialised to `T = Int`.  The repository carries two revisions of the type:
`Source/buffer.h` (namespace `BufferH` below) and `Source/buffer.hpp`
(namespace `BufferHpp` below).  Buffers are modelled by their observable
state: the owned block (`none` for a null `data_` pointer, `some blk` for an
allocated block whose `capacity_` slots hold the values `blk`), the `size_`
field and the `capacity_` field.  The aliasing behaviour of self-append is
analysed on an explicit heap model (namespace `HeapModel` below) in which
`new` allocates a fresh block identifier and `delete[]` removes it, so that a
read through a dangling pointer is detectable. -/

/-- Error conditions raised by the buffer operations: `std::invalid_argument`
and `std::out_of_range` in the C++ source. -/
inductive Err where
  | invalidArgument : Err
  | outOfRange : Err
deriving DecidableEq, Repr

/-- Observable state of a `stdex::buffer<Int>`: the fields `data_`, `size_`
and `capacity_`.  `data = none` models a null `data_` pointer; `data = some
blk` models an owned block whose slots hold `blk` (so `blk.length` is the
number of allocated slots). -/
structure Buffer where
  data : Option (List Int)
  size : Nat
  capacity : Nat
deriving DecidableEq, Repr

/-- Effect of `std::copy(src, src + src.length, block + pos)`: the slots
`[pos, pos + src.length)` of `block` are overwritten with `src`.  (Faithful
to the C++ when `pos + src.length ≤ block.length`; all uses below are within
bounds.) -/
def writeAt (block : List Int) (pos : Nat) (src : List Int) : List Int :=
  block.take pos ++ src ++ block.drop (pos + src.length)

/-- The live region `[0, size_)` of a buffer: the elements an observer can
reach through bounds-checked access. -/
def Buffer.content (b : Buffer) : List Int :=
  (b.data.getD []).take b.size

/-- The state produced by the default constructor (`buffer.hpp` lines 22-24):
null data, zero size, zero capacity. -/
def Buffer.emptyBuf : Buffer :=
  { data := none, size := 0, capacity := 0 }

/-- The representation invariant stated by the specification: `size_ ≤
capacity_`, and `capacity_ = 0` exactly when the data pointer is null. -/
def Buffer.Inv (b : Buffer) : Prop :=
  b.size ≤ b.capacity ∧ (b.capacity = 0 ↔ b.data = none)

/-- Well-formedness: the invariant together with the fact that the owned
block really has `capacity_` slots. -/
def Buffer.WF (b : Buffer) : Prop :=
  b.size ≤ b.capacity ∧ (b.capacity = 0 ↔ b.data = none) ∧
    (b.data.getD []).length = b.capacity

instance (b : Buffer) : Decidable b.Inv := by
  unfold Buffer.Inv; infer_instance

instance (b : Buffer) : Decidable b.WF := by
  unfold Buffer.WF; infer_instance

namespace BufferHpp

/-- `buffer.hpp` `assign(const T* data, std::size_t size, std::size_t
capacity)` (lines 156-172).  `src = none` models a null source pointer;
otherwise the source block holds `s` and the call reads its first
`min len cap` slots.  The old block of the assigned-to buffer is freed after
the copy, so only the arguments determine the result state. -/
def assignPtr (src : Option (List Int)) (len cap : Nat) : Buffer :=
  let sz := if cap > len then len else cap
  let tmp0 : Option (List Int) :=
    if 0 < cap then some (List.replicate cap 0) else none
  let tmp : Option (List Int) :=
    match tmp0, src with
    | some t, some s => if 0 < sz then some (writeAt t 0 (s.take sz)) else some t
    | t, _ => t
  { data := tmp,
    size := if tmp.isSome then sz else 0,
    capacity := if tmp.isSome then cap else 0 }

/-- `buffer.hpp` `assign(std::size_t capacity)` (lines 140-143): delegates to
the three-argument `assign` with the buffer's own data and size, unless the
capacity is already the requested one. -/
def assignCapacity (b : Buffer) (cap : Nat) : Buffer :=
  if cap ≠ b.capacity then assignPtr b.data b.size cap else b

/-- `buffer.hpp` `insert(const T* data, std::size_t size, std::size_t
position)` (lines 226-246), for a source block that does not alias the
buffer's own block (the aliasing case is analysed on the heap model).  The
C++ throws `std::invalid_argument` before any mutation, so the error branch
leaves the buffer unchanged.  The `copy_backward` moves the old elements
`[position, size_)` so that they end at slot `capacity = size + size_`, then
the source is copied to `[position, position + size)`. -/
def insert (b : Buffer) (src : Option (List Int)) (len pos : Nat) :
    Except Err Buffer :=
  if b.size < pos then .error .invalidArgument
  else
    let cap := len + b.size
    let b1 := if b.capacity < cap then assignCapacity b cap else b
    let d2 : Option (List Int) :=
      match src, b1.data with
      | some s, some blk =>
        if 0 < len then
          let tail := (blk.drop pos).take (b1.size - pos)
          let blk1 := writeAt blk (cap - (b1.size - pos)) tail
          some (writeAt blk1 pos (s.take len))
        else b1.data
      | _, _ => b1.data
    .ok { data := d2, size := cap, capacity := b1.capacity }

/-- `buffer.hpp` `append(const T* data, std::size_t size)` (lines 195-197):
delegates to `insert` at position `size_`. -/
def append (b : Buffer) (src : Option (List Int)) (len : Nat) :
    Except Err Buffer :=
  insert b src len b.size

/-- `buffer.hpp` `acquire(T* data, std::size_t size, std::size_t capacity)`
(lines 278-287): throws `std::invalid_argument` (before any mutation) when
the pointer is null, the size is zero, or the size exceeds the capacity;
otherwise clears the old block and adopts the given one. -/
def acquire (_b : Buffer) (src : Option (List Int)) (len cap : Nat) :
    Except Err Buffer :=
  if src = none ∨ len = 0 ∨ cap < len then .error .invalidArgument
  else .ok { data := src, size := len, capacity := cap }

/-- `buffer.hpp` `release()` (lines 291-296): returns the owned pointer
(together with the block it still points to, which is not deallocated) and
resets the buffer to the empty state. -/
def release (b : Buffer) : Option (List Int) × Buffer :=
  (b.data, { data := none, size := 0, capacity := 0 })

/-- `buffer.hpp` `clear()` (lines 255-260): deallocates and resets to the
empty state. -/
def clear (_b : Buffer) : Buffer :=
  { data := none, size := 0, capacity := 0 }

/-- `buffer.hpp` `shrink_to_fit()` (lines 249-252). -/
def shrinkToFit (b : Buffer) : Buffer :=
  if b.capacity ≠ b.size then assignPtr b.data b.size b.size else b

/-- `buffer.hpp` `at(std::size_t index)` (lines 321-326): bounds-checked
element access. -/
def atIdx (b : Buffer) (i : Nat) : Except Err Int :=
  if b.size ≤ i then .error .outOfRange
  else .ok ((b.data.getD []).getD i 0)

/-- `buffer.hpp` `operator[]` (lines 86-88): unchecked read `data()[index]`. -/
def get (b : Buffer) (i : Nat) : Int :=
  (b.data.getD []).getD i 0

/-- Largest value of `std::size_t` on the 64-bit targets the repository
builds for. -/
def sizeTMax : Nat := 2 ^ 64 - 1

/-- `buffer.hpp` `first()` (lines 336-338): `at(0)`. -/
def first (b : Buffer) : Except Err Int :=
  atIdx b 0

/-- `buffer.hpp` `last()` (lines 348-350): `at(size() - 1)`, where the
subtraction is on `std::size_t`, so on an empty buffer the index wraps
around to `2^64 - 1`. -/
def last (b : Buffer) : Except Err Int :=
  atIdx b (if b.size = 0 then sizeTMax else b.size - 1)

/-- Construction from an initializer list (`buffer.hpp` lines 42-45 and
134-136): `assign(list.begin(), list.size())`, hence capacity = length. -/
def fromList (l : List Int) : Buffer :=
  assignPtr (some l) l.length l.length

end BufferHpp

namespace BufferH

/-- `buffer.h` `assign(const T* data, size_t size, size_t capacity)` (lines
198-210): the capacity is clamped up to `max(size, capacity)` and all `size`
source elements are copied. -/
def assignPtr (src : Option (List Int)) (len cap0 : Nat) : Buffer :=
  let cap := if len > cap0 then len else cap0
  let tmp0 : Option (List Int) :=
    if 0 < cap then some (List.replicate cap 0) else none
  let tmp : Option (List Int) :=
    match tmp0, src with
    | some t, some s => if 0 < len then some (writeAt t 0 (s.take len)) else some t
    | t, _ => t
  { data := tmp,
    size := if tmp.isSome then len else 0,
    capacity := if tmp.isSome then cap else 0 }

/-- `buffer.h` `assign(size_t capacity)` (lines 170-181): reallocates to the
requested capacity, keeping the first `min(size_, capacity)` elements. -/
def assignCapacity (b : Buffer) (cap : Nat) : Buffer :=
  let sz := if cap > b.size then b.size else cap
  let tmp0 : Option (List Int) :=
    if 0 < cap then some (List.replicate cap 0) else none
  let tmp : Option (List Int) :=
    match b.data, tmp0 with
    | some d, some t => if 0 < sz then some (writeAt t 0 (d.take sz)) else some t
    | _, t => t
  { data := tmp,
    size := if tmp.isSome then sz else 0,
    capacity := if tmp.isSome then cap else 0 }

/-- `buffer.h` `append(const T* data, size_t size)` (lines 250-264): direct
grow-and-copy.  When growth is needed the old elements are copied to the new
block, then the source is copied behind them, and only then is the old block
deleted - which is what makes this version alias-safe. -/
def append (b : Buffer) (src : Option (List Int)) (len : Nat) : Buffer :=
  let cap := len + b.size
  let tmp0 : Option (List Int) :=
    if b.capacity < cap then some (List.replicate cap 0) else b.data
  let tmp1 : Option (List Int) :=
    match tmp0, b.data with
    | some t, some d =>
      if b.capacity < cap ∧ 0 < b.size then some (writeAt t 0 (d.take b.size))
      else some t
    | t, _ => t
  let tmp2 : Option (List Int) :=
    match tmp1, src with
    | some t, some s => if 0 < len then some (writeAt t b.size (s.take len)) else some t
    | t, _ => t
  { data := tmp2,
    size := cap,
    capacity := if b.capacity < cap then cap else b.capacity }

/-- Construction from an initializer list (`buffer.h` lines 46-49 and
162-164). -/
def fromList (l : List Int) : Buffer :=
  assignPtr (some l) l.length l.length

end BufferH

namespace HeapModel

/-- A heap of allocated blocks: each live block has an identifier and the
list of values its slots hold; `next` is the next fresh identifier.
`delete[]` removes a block, so a dangling pointer is an identifier that is
no longer in `blocks`. -/
structure Heap where
  blocks : List (Nat × List Int)
  next : Nat
deriving DecidableEq, Repr

/-- Contents of the block an identifier refers to, if it is still live. -/
def Heap.lookup (h : Heap) (id : Nat) : Option (List Int) :=
  (h.blocks.find? (fun p => p.1 = id)).map Prod.snd

/-- `new T[n]()`: a fresh zero-filled block of `n` slots. -/
def Heap.alloc (h : Heap) (n : Nat) : Heap × Nat :=
  ({ blocks := (h.next, List.replicate n 0) :: h.blocks, next := h.next + 1 },
   h.next)

/-- `delete[]`: the block leaves the heap. -/
def Heap.free (h : Heap) (id : Nat) : Heap :=
  { h with blocks := h.blocks.filter (fun p => p.1 ≠ id) }

/-- Replace the contents of a live block. -/
def Heap.write (h : Heap) (id : Nat) (l : List Int) : Heap :=
  { h with blocks := h.blocks.map (fun p => if p.1 = id then (p.1, l) else p) }

/-- Read `len` slots starting at `off` from a block; `none` when the block is
no longer live or the read runs past its end (undefined behaviour in C++). -/
def Heap.read (h : Heap) (id : Nat) (off len : Nat) : Option (List Int) :=
  match h.lookup id with
  | none => none
  | some blk =>
    if off + len ≤ blk.length then some ((blk.drop off).take len) else none

/-- A buffer state in the heap model: `data_` is a block identifier (or null). -/
structure HBuffer where
  data : Option Nat
  size : Nat
  capacity : Nat
deriving DecidableEq, Repr

/-- Outcome of an operation in the heap model: a C++ exception, a normal
result, or undefined behaviour (`fault`, e.g. a read through a dangling
pointer). -/
inductive HRes where
  | fault : HRes
  | err : Err → HRes
  | ok : Heap → HBuffer → HRes
deriving DecidableEq, Repr

/-- `buffer.hpp` `assign(const T* data, std::size_t size, std::size_t
capacity)` (lines 156-172) on the heap model.  The source pointer is a block
identifier (offset 0); the copy out of it happens before the old block is
freed, exactly as in the source (copy at line 164, release of the old block
at line 167). -/
def hAssignPtr (h : Heap) (b : HBuffer) (src : Option Nat) (len cap : Nat) :
    Option (Heap × HBuffer) :=
  let sz := if cap > len then len else cap
  let p := if 0 < cap then (let q := h.alloc cap; (q.1, some q.2)) else (h, none)
  let h1 := p.1
  let tmp := p.2
  let step : Option Heap :=
    match tmp, src with
    | some t, some s =>
      if 0 < sz then
        match h1.read s 0 sz with
        | none => none
        | some vals =>
          match h1.lookup t with
          | none => none
          | some tblk => some (h1.write t (writeAt tblk 0 vals))
      else some h1
    | _, _ => some h1
  match step with
  | none => none
  | some h2 =>
    let h3 := match b.data with
      | some old => h2.free old
      | none => h2
    some (h3, { data := tmp,
                size := if tmp.isSome then sz else 0,
                capacity := if tmp.isSome then cap else 0 })

/-- `buffer.hpp` `assign(std::size_t capacity)` (lines 140-143) on the heap
model: passes the buffer's own data pointer as source. -/
def hAssignCapacity (h : Heap) (b : HBuffer) (cap : Nat) :
    Option (Heap × HBuffer) :=
  if cap ≠ b.capacity then hAssignPtr h b b.data b.size cap else some (h, b)

/-- `buffer.hpp` `insert(const T* data, std::size_t size, std::size_t
position)` (lines 226-246) on the heap model.  When growth is needed,
`assign(capacity)` at line 235 frees the old block; the copy from the `data`
parameter at line 242 happens afterwards, so a source pointer aliasing the
old block is dangling by then. -/
def hInsert (h : Heap) (b : HBuffer) (src : Option Nat) (len pos : Nat) :
    HRes :=
  if b.size < pos then .err .invalidArgument
  else
    let cap := len + b.size
    let res1 : Option (Heap × HBuffer) :=
      if b.capacity < cap then hAssignCapacity h b cap else some (h, b)
    match res1 with
    | none => .fault
    | some (h1, b1) =>
      match src with
      | none => .ok h1 { b1 with size := cap }
      | some s =>
        if 0 < len then
          match b1.data with
          | none => .fault
          | some did =>
            match h1.read did pos (b1.size - pos) with
            | none => .fault
            | some tail =>
              match h1.lookup did with
              | none => .fault
              | some dblk =>
                let h2 := h1.write did (writeAt dblk (cap - (b1.size - pos)) tail)
                match h2.read s 0 len with
                | none => .fault
                | some vals =>
                  match h2.lookup did with
                  | none => .fault
                  | some dblk2 =>
                    .ok (h2.write did (writeAt dblk2 pos vals))
                       { b1 with size := cap }
        else .ok h1 { b1 with size := cap }

/-- `a.append(a)` in `buffer.hpp` (lines 176-178 and 195-197): passes the
buffer's own data pointer and size to `insert` at position `size_`. -/
def hSelfAppendHpp (h : Heap) (b : HBuffer) : HRes :=
  hInsert h b b.data b.size b.size

/-- `buffer.h` `append(const T* data, size_t size)` (lines 250-264) on the
heap model: both copies (old contents to the new block, then the source
behind them) happen before the old block is deleted at line 261. -/
def hAppendH (h : Heap) (b : HBuffer) (src : Option Nat) (len : Nat) : HRes :=
  let cap := len + b.size
  let exceeds := b.capacity < cap
  let p := if exceeds then (let q := h.alloc cap; (q.1, some q.2)) else (h, b.data)
  let h1 := p.1
  let tmp := p.2
  let step1 : Option Heap :=
    match tmp, b.data with
    | some t, some d =>
      if exceeds ∧ 0 < b.size then
        match h1.read d 0 b.size with
        | none => none
        | some vals =>
          match h1.lookup t with
          | none => none
          | some tblk => some (h1.write t (writeAt tblk 0 vals))
      else some h1
    | _, _ => some h1
  match step1 with
  | none => .fault
  | some h2 =>
    let step2 : Option Heap :=
      match tmp, src with
      | some t, some s =>
        if 0 < len then
          match h2.read s 0 len with
          | none => none
          | some vals =>
            match h2.lookup t with
            | none => none
            | some tblk => some (h2.write t (writeAt tblk b.size vals))
        else some h2
      | _, _ => some h2
    match step2 with
    | none => .fault
    | some h3 =>
      let h4 := if exceeds then
          match b.data with
          | some old => h3.free old
          | none => h3
        else h3
      .ok h4 { data := tmp,
               size := len + b.size,
               capacity := if exceeds then cap else b.capacity }

/-- `a.append(a)` in `buffer.h` (lines 216-218): passes the buffer's own data
pointer and size to the array-append. -/
def hSelfAppendH (h : Heap) (b : HBuffer) : HRes :=
  hAppendH h b b.data b.size

end HeapModel

/-- The release/acquire round trip of claim C8: `release()` hands the owned
pointer to the caller, and a fresh buffer then calls `acquire` with that
pointer and the original size and capacity. -/
def roundTrip (a : Buffer) : Except Err Buffer :=
  BufferHpp.acquire Buffer.emptyBuf (BufferHpp.release a).1 a.size a.capacity

instance {e a : Type} [DecidableEq e] [DecidableEq a] : DecidableEq (Except e a)
  | .error x, .error y =>
    if h : x = y then .isTrue (by rw [h]) else .isFalse (by intro hh; cases hh; exact h rfl)
  | .error _, .ok _ => .isFalse (by intro hh; cases hh)
  | .ok _, .error _ => .isFalse (by intro hh; cases hh)
  | .ok x, .ok y =>
    if h : x = y then .isTrue (by rw [h]) else .isFalse (by intro hh; cases hh; exact h rfl)

lemma writeAt_nil (l : List Int) (p : Nat) : writeAt l p [] = l := by
  simp [writeAt]

lemma writeAt_zero (l x : List Int) : writeAt l 0 x = x ++ l.drop x.length := by
  simp [writeAt]

lemma writeAt_length (l x : List Int) (p : Nat) (h : p + x.length ≤ l.length) :
    (writeAt l p x).length = l.length := by
  simp [writeAt]; omega

namespace BufferHpp

lemma assignPtr_none (len cap : Nat) :
    assignPtr none len cap =
      if 0 < cap then
        { data := some (List.replicate cap 0), size := min len cap, capacity := cap }
      else Buffer.emptyBuf := by
  unfold assignPtr Buffer.emptyBuf
  rcases Nat.eq_zero_or_pos cap with hc | hc
  · subst hc; simp
  · have hne : cap ≠ 0 := by omega
    simp only [hc, if_true, hne, if_false]
    have hif : (if cap > len then len else cap) = min len cap := by
      split <;> omega
    simp [hif]

lemma assignPtr_some (s : List Int) (len cap : Nat) (h : len ≤ s.length) :
    assignPtr (some s) len cap =
      if 0 < cap then
        { data := some (s.take (min len cap) ++ List.replicate (cap - min len cap) 0),
          size := min len cap, capacity := cap }
      else Buffer.emptyBuf := by
  unfold assignPtr Buffer.emptyBuf
  rcases Nat.eq_zero_or_pos cap with hc | hc
  · subst hc; simp
  · have hne : cap ≠ 0 := by omega
    have hif : (if cap > len then len else cap) = min len cap := by
      split <;> omega
    simp only [hc, if_true, hne, if_false, hif]
    have hlen : (s.take (min len cap)).length = min len cap := by
      rw [List.length_take]; omega
    rcases Nat.eq_zero_or_pos (min len cap) with h0 | h0
    · simp [h0]
    · simp only [h0, if_true]
      rw [writeAt_zero, hlen, List.drop_replicate]
      simp

end BufferHpp

namespace BufferH

lemma assignPtrH_none (len cap0 : Nat) :
    assignPtr none len cap0 =
      if 0 < max len cap0 then
        { data := some (List.replicate (max len cap0) 0), size := len,
          capacity := max len cap0 }
      else Buffer.emptyBuf := by
  unfold assignPtr Buffer.emptyBuf
  have hif : (if len > cap0 then len else cap0) = max len cap0 := by
    split <;> omega
  rcases Nat.eq_zero_or_pos (max len cap0) with hc | hc
  · simp [hif, hc]
  · have hne : max len cap0 ≠ 0 := by omega
    simp [hif, hc, hne]

lemma assignPtrH_some (s : List Int) (len cap0 : Nat) (h : len ≤ s.length) :
    assignPtr (some s) len cap0 =
      if 0 < max len cap0 then
        { data := some (s.take len ++ List.replicate (max len cap0 - len) 0),
          size := len, capacity := max len cap0 }
      else Buffer.emptyBuf := by
  unfold assignPtr Buffer.emptyBuf
  have hif : (if len > cap0 then len else cap0) = max len cap0 := by
    split <;> omega
  rcases Nat.eq_zero_or_pos (max len cap0) with hc | hc
  · simp [hif, hc]
  · have hne : max len cap0 ≠ 0 := by omega
    have hlen : (s.take len).length = len := by
      rw [List.length_take]; omega
    simp only [hif, hc, if_true, hne, if_false]
    rcases Nat.eq_zero_or_pos len with h0 | h0
    · simp [h0]
    · simp only [h0, if_true]
      rw [writeAt_zero, hlen, List.drop_replicate]
      simp

lemma assignCapacity_eq (b : Buffer) (cap : Nat) (hb : b.WF) :
    assignCapacity b cap =
      if 0 < cap then
        { data := some (b.content.take cap ++
            List.replicate (cap - min b.size cap) 0),
          size := min b.size cap, capacity := cap }
      else Buffer.emptyBuf := by
  obtain ⟨hsc, hiff, hlen⟩ := hb
  unfold assignCapacity Buffer.emptyBuf
  have hif : (if cap > b.size then b.size else cap) = min b.size cap := by
    split <;> omega
  rcases Nat.eq_zero_or_pos cap with hc | hc
  · subst hc
    rcases hd : b.data with _ | d <;> simp [hif]
  · have hne : cap ≠ 0 := by omega
    rcases hd : b.data with _ | d
    · have hc0 : b.capacity = 0 := hiff.mpr hd
      have hs0 : b.size = 0 := by omega
      simp [hif, hd, hc, hne, hs0, Buffer.content]
    · have hdl : d.length = b.capacity := by
        rw [hd] at hlen; simpa using hlen
      have hcon : b.content = d.take b.size := by
        simp [Buffer.content, hd]
      rcases Nat.eq_zero_or_pos (min b.size cap) with h0 | h0
      · have hs0 : b.size = 0 := by omega
        simp [hif, hd, hc, hne, h0, hs0, hcon]
      · have hlt : (d.take (min b.size cap)).length = min b.size cap := by
          rw [List.length_take]; omega
        simp only [hif, hd, hc, if_true, hne, if_false, h0]
        rw [writeAt_zero, hlt, List.drop_replicate]
        have : b.content.take cap = d.take (min b.size cap) := by
          rw [hcon, List.take_take, Nat.min_comm]
        simp [this]

end BufferH

lemma emptyBuf_WF : Buffer.emptyBuf.WF := by
  refine ⟨by simp [Buffer.emptyBuf], by simp [Buffer.emptyBuf], by simp [Buffer.emptyBuf]⟩

lemma mk_WF (blk : List Int) (sz cap : Nat) (h1 : sz ≤ cap) (h2 : 0 < cap)
    (h3 : blk.length = cap) :
    Buffer.WF { data := some blk, size := sz, capacity := cap } := by
  refine ⟨h1, by simp; omega, by simpa⟩

lemma Buffer.content_length (b : Buffer) (hb : b.WF) : b.content.length = b.size := by
  obtain ⟨h1, h2, h3⟩ := hb
  rcases hd : b.data with _ | d
  · have : b.capacity = 0 := h2.mpr hd
    simp [Buffer.content, hd]; omega
  · rw [hd] at h3; simp at h3
    simp [Buffer.content, hd, List.length_take]
    omega

namespace BufferHpp

lemma assignPtr_WF (src : Option (List Int)) (len cap : Nat)
    (hsrc : ∀ s, src = some s → len ≤ s.length) :
    (assignPtr src len cap).WF := by
  rcases src with _ | s
  · rw [assignPtr_none]
    split
    · exact mk_WF _ _ _ (by omega) (by assumption) (by simp)
    · exact emptyBuf_WF
  · rw [assignPtr_some s len cap (hsrc s rfl)]
    split
    · refine mk_WF _ _ _ (by omega) (by assumption) ?_
      have := hsrc s rfl
      simp [List.length_take]
      omega
    · exact emptyBuf_WF

lemma assignCapacity_grow (b : Buffer) (cap : Nat) (h : b.capacity ≠ cap) :
    assignCapacity b cap = assignPtr b.data b.size cap := by
  unfold assignCapacity
  simp [Ne.symm h]

lemma assignCapacity_spec (b : Buffer) (cap : Nat) (hb : b.WF) :
    (assignCapacity b cap).capacity = cap ∧
    (assignCapacity b cap).size = min b.size cap ∧
    (assignCapacity b cap).content = b.content.take cap ∧
    (assignCapacity b cap).WF := by
  by_cases hc : cap = b.capacity
  · have heq : assignCapacity b cap = b := by
      unfold assignCapacity; simp [hc]
    obtain ⟨h1, h2, h3⟩ := hb
    refine ⟨by rw [heq, hc], by rw [heq]; omega, ?_, by rw [heq]; exact ⟨h1, h2, h3⟩⟩
    rw [heq, List.take_of_length_le]
    rw [Buffer.content_length b ⟨h1, h2, h3⟩]
    omega
  · rw [assignCapacity_grow b cap (fun h => hc h.symm)]
    obtain ⟨h1, h2, h3⟩ := hb
    rcases hd : b.data with _ | d
    · have hcap0 : b.capacity = 0 := h2.mpr hd
      have hs0 : b.size = 0 := by omega
      rw [assignPtr_none]
      have hcon : b.content = [] := by simp [Buffer.content, hd, hs0]
      split
    -- 0 < cap
      · refine ⟨rfl, by simp [hs0], ?_, mk_WF _ _ _ (by omega) (by assumption) (by simp)⟩
        simp [Buffer.content, hs0, hcon]
      · have : cap = 0 := by omega
        refine ⟨by simp [Buffer.emptyBuf, this], by simp [Buffer.emptyBuf, hs0], ?_,
          emptyBuf_WF⟩
        simp [Buffer.emptyBuf, Buffer.content, hcon, this]
    · have hdl : d.length = b.capacity := by rw [hd] at h3; simpa using h3
      have hsd : b.size ≤ d.length := by omega
      rw [assignPtr_some d b.size cap hsd]
      have hcon : b.content = d.take b.size := by simp [Buffer.content, hd]
      have htt : b.content.take cap = d.take (min b.size cap) := by
        rw [hcon, List.take_take, Nat.min_comm]
      split
      · have hlt : (d.take (min b.size cap)).length = min b.size cap := by
          rw [List.length_take]; omega
        refine ⟨rfl, rfl, ?_, ?_⟩
        · rw [htt]
          simp only [Buffer.content, Option.getD_some]
          exact List.take_left' hlt
        · refine mk_WF _ _ _ (by omega) (by assumption) ?_
          simp [List.length_take]; omega
      · have : cap = 0 := by omega
        refine ⟨by simp [Buffer.emptyBuf, this], by simp [Buffer.emptyBuf, this], ?_,
          emptyBuf_WF⟩
        simp [Buffer.emptyBuf, Buffer.content, this]

end BufferHpp

lemma BufferHpp.insert_eq_ok (b : Buffer) (src : Option (List Int)) (len pos : Nat)
    (hp : pos ≤ b.size) :
    BufferHpp.insert b src len pos =
      .ok { data :=
              match src,
                (if b.capacity < len + b.size then
                  BufferHpp.assignCapacity b (len + b.size) else b).data with
              | some s, some blk =>
                if 0 < len then
                  some (writeAt
                    (writeAt blk
                      (len + b.size -
                        ((if b.capacity < len + b.size then
                          BufferHpp.assignCapacity b (len + b.size) else b).size - pos))
                      ((blk.drop pos).take
                        ((if b.capacity < len + b.size then
                          BufferHpp.assignCapacity b (len + b.size) else b).size - pos)))
                    pos (s.take len))
                else (if b.capacity < len + b.size then
                  BufferHpp.assignCapacity b (len + b.size) else b).data
              | _, _ => (if b.capacity < len + b.size then
                  BufferHpp.assignCapacity b (len + b.size) else b).data,
            size := len + b.size,
            capacity := (if b.capacity < len + b.size then
              BufferHpp.assignCapacity b (len + b.size) else b).capacity } := by
  unfold BufferHpp.insert
  rw [if_neg (by omega)]

lemma BufferHpp.insert_body_WF (b1 : Buffer) (src : Option (List Int))
    (len pos bsize : Nat) (w : b1.WF) (hsz : b1.size = bsize)
    (hcl : len + bsize ≤ b1.capacity) (hpos : pos ≤ bsize) :
    Buffer.WF
      { data :=
          match src, b1.data with
          | some s, some blk =>
            if 0 < len then
              some (writeAt
                (writeAt blk (len + bsize - (b1.size - pos))
                  ((blk.drop pos).take (b1.size - pos)))
                pos (s.take len))
            else b1.data
          | _, _ => b1.data,
        size := len + bsize, capacity := b1.capacity } := by
  obtain ⟨w1, w2, w3⟩ := w
  rcases hsrc2 : src with _ | s
  · simp only [hsrc2]
    exact ⟨hcl, w2, w3⟩
  · rcases hblk : b1.data with _ | blk
    · have hc0 : b1.capacity = 0 := w2.mpr hblk
      simp only [hsrc2, hblk]
      exact ⟨hcl, by simp [hc0], by simp [hc0]⟩
    · have hblen : blk.length = b1.capacity := by
        rw [hblk] at w3; simpa using w3
      by_cases hl : 0 < len
      · simp only [hsrc2, hblk, if_pos hl]
        have htl : ((blk.drop pos).take (b1.size - pos)).length
            = min (b1.size - pos) (blk.length - pos) := by
          rw [List.length_take, List.length_drop]
        have hlen1 : (writeAt blk (len + bsize - (b1.size - pos))
            ((blk.drop pos).take (b1.size - pos))).length = blk.length := by
          apply writeAt_length
          rw [htl]
          omega
        have hcond : pos + (s.take len).length ≤
            (writeAt blk (len + bsize - (b1.size - pos))
              ((blk.drop pos).take (b1.size - pos))).length := by
          rw [hlen1, List.length_take]
          omega
        have hlen2 := (writeAt_length _ (s.take len) pos hcond).trans hlen1
        have hcpos : ¬ b1.capacity = 0 := by
          intro hz
          rw [hblk] at w2
          exact absurd (w2.mp hz) (by simp)
        refine ⟨hcl, by simp [hcpos], ?_⟩
        simpa using hlen2.trans hblen
      · simp only [hsrc2, hblk, if_neg hl]
        rw [← hblk]
        exact ⟨hcl, w2, w3⟩

lemma BufferHpp.insert_WF (b : Buffer) (src : Option (List Int)) (len pos : Nat)
    (hb : b.WF) (b2 : Buffer) (h : BufferHpp.insert b src len pos = .ok b2) :
    b2.WF := by
  by_cases hp : b.size < pos
  · rw [(by unfold BufferHpp.insert; rw [if_pos hp] :
      BufferHpp.insert b src len pos = .error .invalidArgument)] at h
    cases h
  · rw [BufferHpp.insert_eq_ok b src len pos (by omega)] at h
    injection h with hrec
    subst hrec
    by_cases hex : b.capacity < len + b.size
    · simp only [if_pos hex]
      obtain ⟨hc1, hc2, _, hc4⟩ := BufferHpp.assignCapacity_spec b (len + b.size) hb
      exact BufferHpp.insert_body_WF _ src len pos b.size hc4
        (by rw [hc2]; omega) (by rw [hc1]) (by omega)
    · simp only [if_neg hex]
      exact BufferHpp.insert_body_WF b src len pos b.size hb rfl (by omega) (by omega)

lemma BufferHpp.assignCapacity_grow_eq (b : Buffer) (cap : Nat) (hb : b.WF)
    (h : b.capacity < cap) :
    BufferHpp.assignCapacity b cap =
      { data := some (b.content ++ List.replicate (cap - b.size) 0),
        size := b.size, capacity := cap } := by
  obtain ⟨h1, h2, h3⟩ := hb
  rw [BufferHpp.assignCapacity_grow b cap (by omega)]
  rcases hd : b.data with _ | d
  · have hc0 : b.capacity = 0 := h2.mpr hd
    have hs0 : b.size = 0 := by omega
    have hcon : b.content = [] := by simp [Buffer.content, hd, hs0]
    rw [BufferHpp.assignPtr_none, if_pos (by omega), hcon, hs0]
    simp
  · have hdl : d.length = b.capacity := by rw [hd] at h3; simpa using h3
    have hmin : min b.size cap = b.size := by omega
    have hcon : b.content = d.take b.size := by simp [Buffer.content, hd]
    rw [BufferHpp.assignPtr_some d b.size cap (by omega), if_pos (by omega),
      hmin, hcon]

/-- C1, counterexample: at source {5,6}, L = 2, C = 1 the claim fails on both
revisions.  `buffer.hpp` `assign(p, 2, 1)` leaves `capacity = 1`, not
`max(2,1) = 2`; `buffer.h` `assign(p, 2, 1)` leaves `size = 2` (all source
elements copied, no truncation), not `min(2,1) = 1`. -/
theorem c1_counterexample :
    ¬ (BufferHpp.assignPtr (some [5, 6]) 2 1).capacity = max 2 1 ∧
    ¬ (BufferH.assignPtr (some [5, 6]) 2 1).size = min 2 1 := by
  decide

/-- C1, amended: for a non-null source block holding L elements,
`assign(p, L, C)` (and the constructor, which delegates to it) behaves as
follows.  In `buffer.hpp` it allocates C slots, copies `min(L,C)` elements
(excess source elements silently dropped when L > C) and leaves
`size = min(L,C)`, `capacity = C`.  In `buffer.h` it allocates `max(L,C)`
slots, copies all L elements and leaves `size = L`, `capacity = max(L,C)`.
When `L ≤ C` the two revisions coincide and the original claim holds:
`max(L,C) = C` slots are allocated, `min(L,C) = L` elements copied. -/
theorem c1_assign_characterisation (s : List Int) (L C : Nat)
    (hL : s.length = L) :
    ((BufferHpp.assignPtr (some s) L C).size = min L C ∧
     (BufferHpp.assignPtr (some s) L C).capacity = C ∧
     (BufferHpp.assignPtr (some s) L C).content = s.take (min L C)) ∧
    ((BufferH.assignPtr (some s) L C).size = L ∧
     (BufferH.assignPtr (some s) L C).capacity = max L C ∧
     (BufferH.assignPtr (some s) L C).content = s) ∧
    (L ≤ C → BufferHpp.assignPtr (some s) L C = BufferH.assignPtr (some s) L C) := by
  have hLs : L ≤ s.length := le_of_eq hL.symm
  rw [BufferHpp.assignPtr_some s L C hLs, BufferH.assignPtrH_some s L C hLs]
  refine ⟨?_, ?_, ?_⟩
  · rcases Nat.eq_zero_or_pos C with hc | hc
    · subst hc
      simp [Buffer.emptyBuf, Buffer.content]
    · rw [if_pos hc]
      refine ⟨rfl, rfl, ?_⟩
      have hlt : (s.take (min L C)).length = min L C := by
        rw [List.length_take]; omega
      show (s.take (min L C) ++ List.replicate (C - min L C) 0).take (min L C)
          = s.take (min L C)
      exact List.take_left' hlt
  · rcases Nat.eq_zero_or_pos (max L C) with hc | hc
    · have hL0 : L = 0 := by omega
      have hs0 : s = [] := List.eq_nil_of_length_eq_zero (by omega)
      rw [if_neg (by omega)]
      subst hs0
      refine ⟨by simp [Buffer.emptyBuf, hL0], by simp [Buffer.emptyBuf]; omega,
        by simp [Buffer.emptyBuf, Buffer.content]⟩
    · rw [if_pos hc]
      refine ⟨rfl, rfl, ?_⟩
      have hlt : (s.take L).length = L := by
        rw [List.length_take]; omega
      show (s.take L ++ List.replicate (max L C - L) 0).take L = s
      rw [List.take_left' hlt]
      exact List.take_of_length_le (le_of_eq hL)
  · intro hLC
    have hmin : min L C = L := Nat.min_eq_left hLC
    have hmax : max L C = C := Nat.max_eq_right hLC
    rcases Nat.eq_zero_or_pos C with hc | hc
    · rw [if_neg (by omega), if_neg (by omega)]
    · rw [if_pos hc, if_pos (by omega), hmin, hmax]

/-- Witness for C1: a concrete instance with the hypothesis discharged. -/
theorem c1_assign_characterisation_witness :
    ([5, 6] : List Int).length = 2 ∧
    (BufferHpp.assignPtr (some [5, 6]) 2 3).capacity = 3 :=
  ⟨by decide, (c1_assign_characterisation [5, 6] 2 3 (by decide)).1.2.1⟩

/-- C2: evaluation of self-append (`a.append(a)`) on the heap model, at the
buffer {1} with size = capacity = 1.  In `buffer.hpp`, `append` delegates to
`insert`, whose reallocation (`assign(2)` at line 235) frees the old block
before line 242 copies from the source pointer, which still points into that
old block: the run faults on a read from a freed block.  `buffer.h`'s
`append` deletes the old block only after both copies and yields {1,1} with
size 2, as the claim demands; the `buffer.hpp` path also succeeds (without
reallocating) when the spare capacity already suffices. -/
theorem c2_self_append_use_after_free :
    HeapModel.hSelfAppendHpp { blocks := [(0, [1])], next := 1 }
        { data := some 0, size := 1, capacity := 1 } = HeapModel.HRes.fault ∧
    HeapModel.hSelfAppendH { blocks := [(0, [1])], next := 1 }
        { data := some 0, size := 1, capacity := 1 } =
      HeapModel.HRes.ok { blocks := [(1, [1, 1])], next := 2 }
        { data := some 1, size := 2, capacity := 2 } ∧
    HeapModel.hSelfAppendHpp { blocks := [(0, [1, 2, 0, 0])], next := 1 }
        { data := some 0, size := 2, capacity := 4 } =
      HeapModel.HRes.ok { blocks := [(0, [1, 2, 1, 2])], next := 1 }
        { data := some 0, size := 4, capacity := 4 } := by
  decide

/-- C3: `insert(data, L, P)` fails with the invalid-argument condition when
`P > size_` (the `throw` at line 228 precedes every mutation, so the buffer
is unchanged), and succeeds for every `P ≤ size_`. -/
theorem c3_insert_position_check (b : Buffer) (src : Option (List Int))
    (len pos : Nat) :
    (b.size < pos →
      BufferHpp.insert b src len pos = .error .invalidArgument) ∧
    (pos ≤ b.size → ∃ b2, BufferHpp.insert b src len pos = .ok b2) := by
  unfold BufferHpp.insert
  constructor
  · intro h
    rw [if_pos h]
  · intro h
    rw [if_neg (by omega)]
    exact ⟨_, rfl⟩

/-- Witness for C3 at a concrete buffer and position. -/
theorem c3_insert_position_check_witness :
    (BufferHpp.fromList [1]).size < 2 ∧
    BufferHpp.insert (BufferHpp.fromList [1]) none 0 2 = .error .invalidArgument :=
  ⟨by decide, (c3_insert_position_check (BufferHpp.fromList [1]) none 0 2).1 (by decide)⟩

/-- C4: `assign(capacity C)` in both revisions leaves `capacity = C`,
preserves the first `min(size, C)` live elements, and clamps the size to
`min(size, C)` (so the size only changes when `C < size`). -/
theorem c4_assign_capacity (b : Buffer) (C : Nat) (hb : b.WF) :
    ((BufferHpp.assignCapacity b C).capacity = C ∧
     (BufferHpp.assignCapacity b C).size = min b.size C ∧
     (BufferHpp.assignCapacity b C).content = b.content.take C) ∧
    ((BufferH.assignCapacity b C).capacity = C ∧
     (BufferH.assignCapacity b C).size = min b.size C ∧
     (BufferH.assignCapacity b C).content = b.content.take C) := by
  obtain ⟨h1, h2, h3, _⟩ := BufferHpp.assignCapacity_spec b C hb
  refine ⟨⟨h1, h2, h3⟩, ?_⟩
  rw [BufferH.assignCapacity_eq b C hb]
  rcases Nat.eq_zero_or_pos C with hc | hc
  · subst hc
    simp [Buffer.emptyBuf, Buffer.content]
  · rw [if_pos hc]
    refine ⟨rfl, rfl, ?_⟩
    have hcl : b.content.length = b.size := Buffer.content_length b hb
    have hlt : (b.content.take C).length = min b.size C := by
      rw [List.length_take]; omega
    show (b.content.take C ++ List.replicate (C - min b.size C) 0).take (min b.size C)
        = b.content.take C
    exact List.take_left' hlt

/-- Witness for C4 at a concrete buffer and capacity. -/
theorem c4_assign_capacity_witness :
    (BufferHpp.fromList [1, 2, 3]).WF ∧
    (BufferHpp.assignCapacity (BufferHpp.fromList [1, 2, 3]) 2).capacity = 2 :=
  ⟨by decide, (c4_assign_capacity (BufferHpp.fromList [1, 2, 3]) 2 (by decide)).1.1⟩

/-- C5, counterexample: starting from the buffer {1,2,3,4,5}, `assign(10)`
leaves `size = 5`, not `size = 0` as the claim states: `assign(capacity)`
keeps `min(size_, capacity)` elements (lines 140-143 and 156-172 of
`buffer.hpp`), and the repository's own test (`testBuffer.cpp`, section
"Append a data with reserved capacity") expects `size == 8` after the
subsequent `append({6,7,8})`, which requires `size == 5` here. -/
theorem c5_counterexample :
    (BufferHpp.assignCapacity (BufferHpp.fromList [1, 2, 3, 4, 5]) 10).size ≠ 0 := by
  decide

/-- C5, amended: from the buffer {1,2,3,4,5} (size 5, capacity 5),
`assign(10)` gives size = 5, capacity = 10, non-null data with the five
elements preserved; the subsequent `append({6,7,8})` gives size = 8,
capacity = 10, element 8 at index 7 and the default value 0 at index 9
(unchecked access, index 9 lies in the zero-filled slack).  Both revisions
agree. -/
theorem c5_scenario :
    (BufferHpp.fromList [1, 2, 3, 4, 5]).size = 5 ∧
    (BufferHpp.fromList [1, 2, 3, 4, 5]).capacity = 5 ∧
    BufferHpp.assignCapacity (BufferHpp.fromList [1, 2, 3, 4, 5]) 10 =
      { data := some [1, 2, 3, 4, 5, 0, 0, 0, 0, 0], size := 5, capacity := 10 } ∧
    BufferHpp.append
        (BufferHpp.assignCapacity (BufferHpp.fromList [1, 2, 3, 4, 5]) 10)
        (some [6, 7, 8]) 3 =
      .ok { data := some [1, 2, 3, 4, 5, 6, 7, 8, 0, 0], size := 8, capacity := 10 } ∧
    BufferHpp.get
      { data := some [1, 2, 3, 4, 5, 6, 7, 8, 0, 0], size := 8, capacity := 10 } 7 = 8 ∧
    BufferHpp.get
      { data := some [1, 2, 3, 4, 5, 6, 7, 8, 0, 0], size := 8, capacity := 10 } 9 = 0 ∧
    BufferH.append
        (BufferH.assignCapacity (BufferH.fromList [1, 2, 3, 4, 5]) 10)
        (some [6, 7, 8]) 3 =
      { data := some [1, 2, 3, 4, 5, 6, 7, 8, 0, 0], size := 8, capacity := 10 } := by
  decide

/-- C6: `acquire(data, size, capacity)` fails with the invalid-argument
condition exactly when the pointer is null, the size is zero, or the size
exceeds the capacity (the `throw` at line 280 precedes the `clear()`, so a
failing call leaves the buffer unchanged); on success the old block is
deallocated (`clear()` at line 282) and the given pointer, size and capacity
are adopted verbatim. -/
theorem c6_acquire_contract (b : Buffer) (src : Option (List Int))
    (len cap : Nat) :
    (BufferHpp.acquire b src len cap = .error .invalidArgument ↔
      src = none ∨ len = 0 ∨ cap < len) ∧
    (src ≠ none → len ≠ 0 → len ≤ cap →
      BufferHpp.acquire b src len cap =
        .ok { data := src, size := len, capacity := cap }) := by
  unfold BufferHpp.acquire
  constructor
  · constructor
    · intro h
      by_contra hne
      rw [if_neg hne] at h
      exact absurd h (by simp)
    · intro h
      rw [if_pos h]
  · intro h1 h2 h3
    rw [if_neg (by push_neg; exact ⟨h1, h2, by omega⟩)]

/-- Witness for C6: a concrete successful adoption. -/
theorem c6_acquire_contract_witness :
    ((some [7] : Option (List Int)) ≠ none ∧ (1 : Nat) ≠ 0 ∧ (1 : Nat) ≤ 2) ∧
    BufferHpp.acquire Buffer.emptyBuf (some [7]) 1 2 =
      .ok { data := some [7], size := 1, capacity := 2 } :=
  ⟨⟨by decide, by decide, by decide⟩,
    (c6_acquire_contract Buffer.emptyBuf (some [7]) 1 2).2 (by decide) (by decide)
      (by decide)⟩

/-- C7: `at(index)` fails with the out-of-range condition exactly when
`index ≥ size_`; on an empty buffer it fails for every index, and `first()`
(`at(0)`) and `last()` (`at(size-1)`, the index wrapping to `2^64 - 1` on
`std::size_t` when the buffer is empty) fail with out-of-range as well. -/
theorem c7_at_bounds (b : Buffer) (i : Nat) :
    (BufferHpp.atIdx b i = .error .outOfRange ↔ b.size ≤ i) ∧
    (b.size = 0 →
      BufferHpp.atIdx b i = .error .outOfRange ∧
      BufferHpp.first b = .error .outOfRange ∧
      BufferHpp.last b = .error .outOfRange) := by
  unfold BufferHpp.atIdx BufferHpp.first BufferHpp.last
  constructor
  · constructor
    · intro h
      by_contra hne
      rw [if_neg hne] at h
      exact absurd h (by simp)
    · intro h
      rw [if_pos h]
  · intro h
    refine ⟨?_, ?_, ?_⟩ <;> simp [BufferHpp.atIdx, h]

/-- Witness for C7 on the empty buffer. -/
theorem c7_at_bounds_witness :
    Buffer.emptyBuf.size = 0 ∧
    BufferHpp.atIdx Buffer.emptyBuf 3 = .error .outOfRange :=
  ⟨rfl, ((c7_at_bounds Buffer.emptyBuf 3).2 rfl).1⟩

/-- C8, counterexample: for a buffer with `size = 0` (here: capacity 10,
freshly reserved), the round trip does not reproduce the buffer: `acquire`
rejects `size == 0` with invalid-argument, so the fresh buffer never adopts
the released block. -/
theorem c8_counterexample :
    roundTrip (BufferHpp.assignCapacity Buffer.emptyBuf 10) =
      .error .invalidArgument := by
  decide

/-- C8, amended: for every well-formed buffer holding at least one live
element, `release()` followed by `acquire(pointer, size, capacity)` on a
fresh buffer reproduces the original buffer exactly (same block contents,
size and capacity). -/
theorem c8_round_trip (a : Buffer) (ha : a.WF) (hs : 0 < a.size) :
    roundTrip a = .ok a := by
  obtain ⟨h1, h2, h3⟩ := ha
  unfold roundTrip BufferHpp.release BufferHpp.acquire
  rw [if_neg]
  · push_neg
    refine ⟨?_, by omega, by omega⟩
    intro hn
    exact absurd (h2.mpr hn) (by omega)

/-- Witness for C8 at a concrete two-element buffer. -/
theorem c8_round_trip_witness :
    (BufferHpp.fromList [1, 2]).WF ∧ 0 < (BufferHpp.fromList [1, 2]).size ∧
    roundTrip (BufferHpp.fromList [1, 2]) = .ok (BufferHpp.fromList [1, 2]) :=
  ⟨by decide, by decide,
    c8_round_trip (BufferHpp.fromList [1, 2]) (by decide) (by decide)⟩

/-- C9: the `buffer.hpp` operations preserve the representation invariants
`size_ ≤ capacity_` and `capacity_ = 0 ⇔ data_ null` (stated here through
`Buffer.WF`, which also records that the owned block has `capacity_` slots;
for `acquire` the code cannot know the true extent of the adopted block, so
only the two claimed invariants are asserted).  Consequently every
well-formed buffer is either Empty (null data, size = capacity = 0) or
Allocated (owns a block, capacity > 0, size ≤ capacity). -/
theorem c9_invariant_preservation (b : Buffer) (src : Option (List Int))
    (len cap pos : Nat) (hb : b.WF)
    (hsrc : ∀ s, src = some s → len ≤ s.length) :
    (BufferHpp.assignPtr src len cap).WF ∧
    (BufferHpp.assignCapacity b cap).WF ∧
    (∀ b2, BufferHpp.insert b src len pos = .ok b2 → b2.WF) ∧
    (∀ b2, BufferHpp.acquire b src len cap = .ok b2 → b2.Inv) ∧
    (BufferHpp.release b).2.WF ∧
    (BufferHpp.clear b).WF ∧
    (BufferHpp.shrinkToFit b).WF ∧
    ((b.data = none ∧ b.size = 0 ∧ b.capacity = 0) ∨
     (b.data ≠ none ∧ 0 < b.capacity ∧ b.size ≤ b.capacity)) := by
  obtain ⟨h1, h2, h3⟩ := hb
  refine ⟨BufferHpp.assignPtr_WF src len cap hsrc,
    (BufferHpp.assignCapacity_spec b cap ⟨h1, h2, h3⟩).2.2.2,
    fun b2 hh => BufferHpp.insert_WF b src len pos ⟨h1, h2, h3⟩ b2 hh,
    ?_, emptyBuf_WF, emptyBuf_WF, ?_, ?_⟩
  · intro b2 hh
    unfold BufferHpp.acquire at hh
    by_cases hc : src = none ∨ len = 0 ∨ cap < len
    · rw [if_pos hc] at hh
      cases hh
    · rw [if_neg hc] at hh
      injection hh with hrec
      subst hrec
      push_neg at hc
      obtain ⟨hc1, hc2, hc3⟩ := hc
      have hcappos : ¬ cap = 0 := by omega
      refine ⟨(by omega : len ≤ cap), ?_⟩
      constructor
      · intro hz
        exact absurd (hz : cap = 0) hcappos
      · intro hz
        exact absurd (hz : src = none) hc1
  · unfold BufferHpp.shrinkToFit
    split
    · apply BufferHpp.assignPtr_WF
      intro s hs
      rw [hs] at h3
      simp at h3
      omega
    · exact ⟨h1, h2, h3⟩
  · rcases hd : b.data with _ | d
    · have : b.capacity = 0 := h2.mpr hd
      exact Or.inl ⟨rfl, by omega, this⟩
    · have : ¬ b.capacity = 0 := by
        intro hz
        rw [h2.mp hz] at hd
        cases hd
      exact Or.inr ⟨by simp [hd], by omega, h1⟩

/-- Witness for C9 at a concrete buffer and arguments. -/
theorem c9_invariant_preservation_witness :
    (BufferHpp.fromList [1]).WF ∧
    (BufferHpp.assignCapacity (BufferHpp.fromList [1]) 2).WF :=
  ⟨by decide,
    (c9_invariant_preservation (BufferHpp.fromList [1]) (some [5]) 1 2 0 (by decide)
      (fun s hs => by cases hs; decide)).2.1⟩

/-- C10: the two append implementations agree.  For every well-formed buffer
and every non-aliasing source block of L elements, `buffer.h`'s direct
grow-and-copy `append(data, L)` and `buffer.hpp`'s `append(data, L)` (which
delegates to `insert` at position `size_`) produce the same data block, size
and capacity; the `buffer.hpp` call succeeds (no exception). -/
theorem c10_append_equivalence (b : Buffer) (s : List Int) (len : Nat)
    (hb : b.WF) (hs : s.length = len) :
    BufferHpp.append b (some s) len = .ok (BufferH.append b (some s) len) := by
  obtain ⟨h1, h2, h3⟩ := hb
  rw [BufferHpp.append, BufferHpp.insert_eq_ok b (some s) len b.size (le_refl _)]
  unfold BufferH.append
  by_cases hex : b.capacity < len + b.size
  · have hlpos : 0 < len := by omega
    simp only [if_pos hex]
    rw [BufferHpp.assignCapacity_grow_eq b (len + b.size) ⟨h1, h2, h3⟩ hex]
    have hcl : b.content.length = b.size := Buffer.content_length b ⟨h1, h2, h3⟩
    simp only [if_pos hlpos, Nat.sub_self, List.take_zero, writeAt_nil]
    rcases hd : b.data with _ | d
    · have hc0 : b.capacity = 0 := h2.mpr hd
      have hs0 : b.size = 0 := by omega
      have hcon : b.content = [] := by simp [Buffer.content, hd, hs0]
      simp [hcon, hs0]
    · have hdl : d.length = b.capacity := by rw [hd] at h3; simpa using h3
      have hcon : b.content = d.take b.size := by simp [Buffer.content, hd]
      rcases Nat.eq_zero_or_pos b.size with hs0 | hspos
      · have hcon0 : b.content = [] := by simp [Buffer.content, hd, hs0]
        simp [hcon0, hs0, hex]
      · have htk : (d.take b.size).length = b.size := by
          rw [List.length_take]; omega
        have hwz : writeAt (List.replicate (len + b.size) 0) 0 (d.take b.size)
            = b.content ++ List.replicate (len + b.size - b.size) 0 := by
          rw [writeAt_zero, htk, List.drop_replicate, hcon]
        simp [hex, hspos, hwz]
  · simp only [if_neg hex]
    rcases Nat.eq_zero_or_pos len with hl0 | hlpos
    · subst hl0
      rcases hd : b.data with _ | d
      · simp
      · have hex2 : ¬ b.capacity < b.size := by omega
        simp [hex2]
    · have hcpos : 0 < b.capacity := by omega
      rcases hd : b.data with _ | d
      · exact absurd (h2.mpr hd) (by omega)
      · simp only [if_pos hlpos, Nat.sub_self, List.take_zero, writeAt_nil]
        simp [hex, hlpos]

/-- Witness for C10 at a concrete buffer and source. -/
theorem c10_append_equivalence_witness :
    (BufferHpp.fromList [1, 2]).WF ∧ ([9, 9, 9] : List Int).length = 3 ∧
    BufferHpp.append (BufferHpp.fromList [1, 2]) (some [9, 9, 9]) 3 =
      .ok (BufferH.append (BufferHpp.fromList [1, 2]) (some [9, 9, 9]) 3) :=
  ⟨by decide, by decide,
    c10_append_equivalence (BufferHpp.fromList [1, 2]) [9, 9, 9] 3 (by decide)
      (by decide)⟩
